import Mathlib

/-!
Verification of the calculator engine (model + controller in the repository's
JavaScript sources) against its natural-language specification.

Modelling conventions:
* JavaScript numbers are modelled as exact rationals (`ℚ`).  IEEE-754 rounding
  and overflow to `±Infinity` are outside the idealized model, so the single
  non-finite constructor `JSNum.nan` stands for every non-finite value
  (`NaN`, `±Infinity`); in the flows reachable here only `NaN` arises
  (from `a % 0`).
* The transcendental kernels of the `Math` library (`sin`, `cos`, `tan`,
  `log10`, `log`, `sqrt`) and the double constants `Math.PI` / `Math.E`
  are parameters (`MathLib`): their values are transcendental and no claim
  depends on them.  Domain checks, `power` (x²) and `factorial` are embedded
  exactly.
* `Number.prototype.toString` is modelled in its plain-decimal regime
  (the `≥ 1e21` / `< 1e-6` exponential regimes are double-precision
  artifacts that the idealized rationals never force); fractional digits are
  produced by long division with a large fuel, which is exact on every
  terminating decimal.
* View calls (`showError`, `showToast`, `updateView`, announcements) and the
  logger are effect-free for the model state and are dropped; where a claim
  depends on an error being signalled, the outcome record carries it
  (`surfaced`, `formatFallback`, the rejection flag of `inputNumber`).
* `localStorage` persistence (`saveState`) and the `Date.now()` /
  ISO-timestamp metadata of history items are environment effects with no
  bearing on any claim; history items keep only `expression` and `result`.
-/

/-- Error taxonomy of the spec, mapped from the `throw new Error(...)` sites:
`'Division by zero'` ↦ `divisionByZero`; the invalid `log`/`ln`/`sqrt`/
`factorial` input messages ↦ `domainError`; `Unknown operation`/`Unknown
function` ↦ `unknownOperation`; an unrecognized strategy name ↦
`unknownStrategy`; `'Invalid number'` ↦ `invalidNumber`. -/
inductive CalcError where
  | divisionByZero
  | domainError
  | unknownOperation
  | unknownStrategy
  | invalidNumber
deriving DecidableEq, Repr

/-- A JavaScript number: an exact rational, or a non-finite value
(`NaN` / `±Infinity`; only `NaN` is reachable in the idealized model). -/
inductive JSNum where
  | num (q : ℚ)
  | nan
deriving DecidableEq, Repr

namespace JSNum

/-- JS `isNaN` (the non-finite collapse makes this also cover `±Infinity`,
which never arises in the rational model). -/
def isNaNb : JSNum → Bool
  | num _ => false
  | nan => true

/-- Lift a binary rational operation, propagating non-finite operands. -/
def lift2 (f : ℚ → ℚ → ℚ) : JSNum → JSNum → JSNum
  | num a, num b => num (f a b)
  | _, _ => nan

/-- Lift a unary rational operation, propagating non-finite operands. -/
def lift1 (f : ℚ → ℚ) : JSNum → JSNum
  | num a => num (f a)
  | nan => nan

end JSNum

/-- Truncation toward zero, as JS `%` uses for its implicit quotient. -/
def truncQ (x : ℚ) : ℤ := if 0 ≤ x then ⌊x⌋ else ⌈x⌉

/-- JS remainder `a % b`: `NaN` when the divisor is `0`, else the
truncated-division remainder (sign of the dividend). -/
def jsRem : JSNum → JSNum → JSNum
  | JSNum.num a, JSNum.num b =>
      if b = 0 then JSNum.nan else JSNum.num (a - b * (truncQ (a / b) : ℚ))
  | _, _ => JSNum.nan

/-- `Nat.digitChar`'s output for an actual digit. -/
def digitChar (n : ℕ) : Char := Nat.digitChar n

/-- Decimal digits of a natural number, most significant first
(fuel-structural so that it reduces in the kernel). -/
def natDigitsAux : ℕ → ℕ → List Char
  | 0, _ => []
  | fuel + 1, n => if n = 0 then [] else natDigitsAux fuel (n / 10) ++ [digitChar (n % 10)]

/-- Decimal rendering of a natural number as a character list. -/
def natToChars (n : ℕ) : List Char :=
  if n = 0 then ['0'] else natDigitsAux (n + 1) n

/-- Fractional decimal digits of `r ∈ [0,1)` by long division; stops when the
remainder is `0` (exact on terminating decimals), fuel-bounded otherwise. -/
def fracDigitsAux : ℕ → ℚ → List Char
  | 0, _ => []
  | fuel + 1, r =>
      if r = 0 then []
      else
        let d := ⌊r * 10⌋.toNat
        digitChar d :: fracDigitsAux fuel (r * 10 - (d : ℚ))

/-- `Number.prototype.toString` in the plain-decimal regime:
sign, integer digits, and a `'.'`-prefixed fractional part when non-zero. -/
def jsNumToChars (q : ℚ) : List Char :=
  let n := |q|
  let ip := (⌊n⌋).toNat
  let fr := fracDigitsAux 1100 (n - (ip : ℚ))
  (if q < 0 then ['-'] else []) ++ natToChars ip ++ (if fr = [] then [] else '.' :: fr)

/-- String form of the plain-decimal rendering. -/
def jsNumToString (q : ℚ) : String := String.mk (jsNumToChars q)

/-- Display interpolation `${x}` of a JS number. -/
def jsNumDisplay : JSNum → String
  | JSNum.num q => jsNumToString q
  | JSNum.nan => "NaN"

/-- For `0 < n < 1`: the number of multiplications by 10 needed to reach `≥ 1`
(fuel-bounded; 1100 covers every value the engine can build). -/
def negExp10Aux : ℕ → ℚ → ℕ
  | 0, _ => 0
  | fuel + 1, n => if 1 ≤ n then 0 else 1 + negExp10Aux fuel (n * 10)

/-- Decimal exponent of a positive rational: the `e` with `10^e ≤ n < 10^(e+1)`
(within the fuel bound). -/
def qLog10 (n : ℚ) : ℤ :=
  if 1 ≤ n then ((natToChars (⌊n⌋).toNat).length - 1 : ℕ)
  else -(negExp10Aux 1100 n : ℤ)

/-- `Number.prototype.toExponential(5)`: one leading digit, five fractional
digits (ECMA-262 picks the larger candidate on ties, i.e. round half up on
the magnitude), and a signed decimal exponent without padding. -/
def toExponential5 (q : ℚ) : String :=
  if q = 0 then "0.00000e+0"
  else
    let sgn : List Char := if q < 0 then ['-'] else []
    let n := |q|
    let e0 := qLog10 n
    let m0 := round (n * (10 : ℚ) ^ ((5 : ℤ) - e0))
    let me : ℤ × ℤ := if m0 = 1000000 then (100000, e0 + 1) else (m0, e0)
    let ds := natToChars me.1.toNat
    let expPart : List Char :=
      if me.2 < 0 then 'e' :: '-' :: natToChars (-me.2).toNat
      else 'e' :: '+' :: natToChars me.2.toNat
    String.mk (sgn ++ (ds.take 1 ++ '.' :: ds.drop 1) ++ expPart)

/-- Insert a `','` after every three characters of a reversed digit list. -/
def groupRev : List Char → List Char
  | a :: b :: c :: d :: rest => a :: b :: c :: ',' :: groupRev (d :: rest)
  | l => l

/-- `Number.prototype.toLocaleString()` under the default `en-US`-style
locale: grouping separators every three integer digits, at most three
fractional digits (rounded half away from zero), trailing zeros stripped.
Only integral values reach it in `formatNumber`. -/
def jsToLocaleString (q : ℚ) : String :=
  let r := (round (|q| * 1000)).toNat
  let ip := r / 1000
  let fr := r % 1000
  let d1 := fr / 100
  let d2 := fr / 10 % 10
  let d3 := fr % 10
  let fracPart : List Char :=
    if fr = 0 then []
    else if d3 ≠ 0 then ['.', digitChar d1, digitChar d2, digitChar d3]
    else if d2 ≠ 0 then ['.', digitChar d1, digitChar d2]
    else ['.', digitChar d1]
  String.mk ((if q < 0 then ['-'] else []) ++ (groupRev (natToChars ip).reverse).reverse ++ fracPart)

/-- `CalculatorModel.formatNumber`: reject non-finite values; render in
exponential notation when the plain rendering exceeds 12 characters; apply
grouping to integral values of magnitude `≥ 1000`; otherwise return the plain
decimal string. -/
def formatNumber (n : JSNum) : Except CalcError String :=
  match n with
  | JSNum.nan => Except.error CalcError.invalidNumber
  | JSNum.num q =>
    let numStr := jsNumToString q
    if 12 < numStr.length then Except.ok (toExponential5 q)
    else if 1000 ≤ |q| ∧ '.' ∉ numStr.data then Except.ok (jsToLocaleString q)
    else Except.ok numStr

/-- Numeric value of a list of decimal digit characters. -/
def digitsToNat (ds : List Char) : ℕ :=
  ds.foldl (fun a c => 10 * a + (c.toNat - '0'.toNat)) 0

/-- JS `parseFloat`: longest numeric prefix `[+-]digits[.digits][e[+-]digits]`
after leading spaces; `NaN` when no digit is found.  (The special literal
`"Infinity"` is a non-finite double artifact outside the rational model.) -/
def jsParseFloat (s : String) : JSNum :=
  let cs0 := s.data.dropWhile (· = ' ')
  let sc : ℚ × List Char :=
    match cs0 with
    | '-' :: t => (-1, t)
    | '+' :: t => (1, t)
    | _ => (1, cs0)
  let ipRest := sc.2.span (·.isDigit)
  let fpRest : List Char × List Char :=
    match ipRest.2 with
    | '.' :: t => t.span (·.isDigit)
    | _ => ([], ipRest.2)
  if ipRest.1 = [] ∧ fpRest.1 = [] then JSNum.nan
  else
    let mant : ℚ := (digitsToNat ipRest.1 : ℚ) +
      (digitsToNat fpRest.1 : ℚ) / (10 : ℚ) ^ fpRest.1.length
    let expVal : ℤ :=
      match fpRest.2 with
      | 'e' :: rest | 'E' :: rest =>
        let sr : ℤ × List Char :=
          match rest with
          | '-' :: t => (-1, t)
          | '+' :: t => (1, t)
          | _ => (1, rest)
        let ed := sr.2.takeWhile (·.isDigit)
        if ed = [] then 0 else sr.1 * (digitsToNat ed : ℤ)
      | _ => 0
    JSNum.num (sc.1 * mant * (10 : ℚ) ^ expVal)

/-- The `Math` library kernels and constants consumed by the scientific
strategy.  Their values are transcendental reals approximated by doubles in
the source; every claim is independent of them, so they are parameters. -/
structure MathLib where
  sin : ℚ → ℚ
  cos : ℚ → ℚ
  tan : ℚ → ℚ
  log10 : ℚ → ℚ
  log : ℚ → ℚ
  sqrt : ℚ → ℚ
  pi : ℚ
  e : ℚ

/-- `CalculationStrategies.basic.operations`: the five binary operators.
`/` rejects a zero divisor before dividing; `%` yields `NaN` on a zero
divisor (JS remainder semantics). -/
def basicOperation : String → Option (JSNum → JSNum → Except CalcError JSNum)
  | "+" => some fun a b => Except.ok (JSNum.lift2 (· + ·) a b)
  | "-" => some fun a b => Except.ok (JSNum.lift2 (· - ·) a b)
  | "*" => some fun a b => Except.ok (JSNum.lift2 (· * ·) a b)
  | "/" => some fun a b =>
      if b = JSNum.num 0 then Except.error CalcError.divisionByZero
      else Except.ok (JSNum.lift2 (· / ·) a b)
  | "%" => some fun a b => Except.ok (jsRem a b)
  | _ => none

/-- The `for (let i = 2; i <= x; i++) result *= i` accumulation. -/
def jsFactorialLoop (n : ℕ) : ℚ :=
  List.foldl (fun (r : ℚ) (i : ℕ) => r * (i : ℚ)) 1 (List.range' 2 (n - 1))

/-- `CalculationStrategies.scientific.operations.factorial`: domain check
(negative, non-integer, or above 170), early return for 0 and 1, else the
product loop. -/
def jsFactorial (x : ℚ) : Except CalcError ℚ :=
  if x < 0 ∨ ¬ x.den = 1 ∨ 170 < x then Except.error CalcError.domainError
  else if x = 0 ∨ x = 1 then Except.ok 1
  else Except.ok (jsFactorialLoop x.num.toNat)

/-- `CalculationStrategies.scientific.operations`: unary functions.  Trig
inputs are degrees, converted via `x * Math.PI / 180`; `log`/`ln` reject
non-positive inputs, `sqrt` rejects negative inputs (a `NaN` input slips past
those sign tests exactly as in JS, where the comparison is false, and
propagates). -/
def scientificOperation (lib : MathLib) : String → Option (JSNum → Except CalcError JSNum)
  | "sin" => some fun x => Except.ok (JSNum.lift1 (fun q => lib.sin (q * lib.pi / 180)) x)
  | "cos" => some fun x => Except.ok (JSNum.lift1 (fun q => lib.cos (q * lib.pi / 180)) x)
  | "tan" => some fun x => Except.ok (JSNum.lift1 (fun q => lib.tan (q * lib.pi / 180)) x)
  | "log" => some fun x =>
      match x with
      | JSNum.num q =>
          if q ≤ 0 then Except.error CalcError.domainError
          else Except.ok (JSNum.num (lib.log10 q))
      | JSNum.nan => Except.ok JSNum.nan
  | "ln" => some fun x =>
      match x with
      | JSNum.num q =>
          if q ≤ 0 then Except.error CalcError.domainError
          else Except.ok (JSNum.num (lib.log q))
      | JSNum.nan => Except.ok JSNum.nan
  | "sqrt" => some fun x =>
      match x with
      | JSNum.num q =>
          if q < 0 then Except.error CalcError.domainError
          else Except.ok (JSNum.num (lib.sqrt q))
      | JSNum.nan => Except.ok JSNum.nan
  | "power" => some fun x => Except.ok (JSNum.lift1 (fun q => q * q) x)
  | "factorial" => some fun x =>
      match x with
      | JSNum.num q => (jsFactorial q).map JSNum.num
      | JSNum.nan => Except.error CalcError.domainError
  | _ => none

/-- `CalculationStrategies[name]`; the scientific table receives both operands
but its unary functions consume only the first, as in JS. -/
def strategyOperations (lib : MathLib) :
    String → Option (String → Option (JSNum → JSNum → Except CalcError JSNum))
  | "basic" => some basicOperation
  | "scientific" => some fun op => (scientificOperation lib op).map (fun f a _b => f a)
  | _ => none

/-- `CalculatorModel.calculate(op, a, b)`: dispatch through the current
strategy table; an absent operation throws (`Unknown operation`), an
unrecognized strategy name fails the table access. -/
def modelCalculate (lib : MathLib) (strategyName op : String) (a b : JSNum) :
    Except CalcError JSNum :=
  match strategyOperations lib strategyName with
  | none => Except.error CalcError.unknownStrategy
  | some ops =>
    match ops op with
    | none => Except.error CalcError.unknownOperation
    | some f => f a b

/-- `CalculatorModel.scientificCalculate(func, value)`: always the scientific
table, regardless of the current strategy. -/
def modelScientificCalculate (lib : MathLib) (func : String) (v : JSNum) :
    Except CalcError JSNum :=
  match scientificOperation lib func with
  | none => Except.error CalcError.unknownOperation
  | some f => f v

/-- A calculation-log entry (`addToHistory`'s `historyItem`); the `Date.now()`
id and ISO timestamp are wall-clock metadata with no bearing on order or
content and are omitted. -/
structure HistoryItem where
  expression : String
  result : String
deriving DecidableEq, Repr

/-- `addToHistory`: prepend (`unshift`) and cut back to the newest 100
(`slice(0, 100)`) when the cap is exceeded. -/
def addToHistory (log : List HistoryItem) (item : HistoryItem) : List HistoryItem :=
  let l := item :: log
  if 100 < l.length then l.take 100 else l

/-- The calculator model's mutable state: the spec's EngineState fields plus
the calculation log and the current strategy name. -/
structure CalcState where
  currentValue : String
  previousValue : String
  operator : Option String
  isWaitingForOperand : Bool
  history : String
  memoryValue : ℚ
  calculationHistory : List HistoryItem
  currentStrategy : String
deriving DecidableEq, Repr

/-- The model's initial state. -/
def initialState : CalcState :=
  { currentValue := "0", previousValue := "", operator := none,
    isWaitingForOperand := false, history := "", memoryValue := 0,
    calculationHistory := [], currentStrategy := "basic" }

/-- Result of a controller action: the state afterwards, the error that
reached the controller's `catch` (shown via `showError`), and whether the
controller's `formatNumber` wrapper caught `Invalid number` and substituted
`'0'`. -/
structure EvalOutcome where
  state : CalcState
  surfaced : Option CalcError
  formatFallback : Bool
deriving DecidableEq, Repr

/-- The controller's private `formatNumber` wrapper: on failure it reports to
the view and yields `'0'`, letting the calling flow continue. -/
def formatNumberWrapped (n : JSNum) : String × Bool :=
  match formatNumber n with
  | Except.ok s => (s, false)
  | Except.error _ => ("0", true)

/-- The controller's `calculate()` (the spec's `evaluate()`): guard on a
pending operator/previous value and a parseable current value, compute via
the model, format, log the expression, install the result, clear the pending
operator. -/
def controllerCalculate (lib : MathLib) (st : CalcState) : EvalOutcome :=
  let current := jsParseFloat st.currentValue
  match st.operator with
  | none => ⟨st, none, false⟩
  | some op =>
    if st.previousValue = "" ∨ current.isNaNb then ⟨st, none, false⟩
    else
      match modelCalculate lib st.currentStrategy op (jsParseFloat st.previousValue) current with
      | Except.error e => ⟨st, some e, false⟩
      | Except.ok result =>
        let fw := formatNumberWrapped result
        let expression := st.previousValue ++ " " ++ op ++ " " ++ jsNumDisplay current
        { state :=
            { st with
              calculationHistory := addToHistory st.calculationHistory ⟨expression, fw.1⟩,
              currentValue := fw.1,
              previousValue := "",
              operator := none,
              isWaitingForOperand := true,
              history := expression ++ " =" },
          surfaced := none,
          formatFallback := fw.2 }

/-- The controller's `performScientificFunction(func)` (the spec's
`evaluateScientific(fn)`): constants substitute directly; otherwise the unary
function is applied to the parsed current value; the history expression reads
`currentValue` after it was overwritten, exactly as the source does. -/
def performScientificFunction (lib : MathLib) (func : String) (st : CalcState) : EvalOutcome :=
  let viaConst := func = "pi" ∨ func = "e"
  let result? : Except (Option CalcError) JSNum :=
    if func = "pi" then Except.ok (JSNum.num lib.pi)
    else if func = "e" then Except.ok (JSNum.num lib.e)
    else
      let current := jsParseFloat st.currentValue
      if current.isNaNb then Except.error none
      else (modelScientificCalculate lib func current).mapError some
  match result? with
  | Except.error e => ⟨st, e, false⟩
  | Except.ok result =>
    let fw := formatNumberWrapped result
    let st1 := { st with currentValue := fw.1, isWaitingForOperand := true }
    let expression := if viaConst then func else func ++ "(" ++ st1.currentValue ++ ")"
    { state :=
        { st1 with calculationHistory := addToHistory st1.calculationHistory ⟨expression, fw.1⟩ },
      surfaced := none,
      formatFallback := fw.2 }

/-- The controller's `inputNumber(num)`: replace on a pending operand, else
append (with the lone `'0'` replaced), rejecting results longer than 15
characters.  The `Bool` records the rejection toast. -/
def inputNumber (num : String) (st : CalcState) : CalcState × Bool :=
  if st.isWaitingForOperand then
    ({ st with currentValue := num, isWaitingForOperand := false }, false)
  else
    let newValue := if st.currentValue = "0" then num else st.currentValue ++ num
    if 15 < newValue.length then (st, true)
    else ({ st with currentValue := newValue }, false)

/-- An event handler: receives the payload and the ambient effect log, and
either extends the log (normal return) or additionally reports a throw
(`true`), modelling a callback raising an exception. -/
def EventHandler (α : Type) : Type := α → List ℕ → List ℕ × Bool

/-- A handler that records its id on the effect log and then optionally
throws — the observable shape needed to talk about delivery. -/
def mkLogger (α : Type) (i : ℕ) (throws : Bool) : EventHandler α :=
  fun _ log => (log ++ [i], throws)

/-- The handler table of `EventEmitter` (`this.events`). -/
structure EventEmitter (α : Type) where
  events : List (String × List (EventHandler α))

/-- Topic lookup (`this.events[eventName]`). -/
def lookupTopic {α : Type} : List (String × List (EventHandler α)) → String →
    Option (List (EventHandler α))
  | [], _ => none
  | (k, hs) :: t, n => if k = n then some hs else lookupTopic t n

/-- Registration upsert: create the topic's array if absent, then `push`. -/
def upsertTopic {α : Type} : List (String × List (EventHandler α)) → String →
    EventHandler α → List (String × List (EventHandler α))
  | [], n, h => [(n, [h])]
  | (k, hs) :: t, n, h =>
      if k = n then (k, hs ++ [h]) :: t else (k, hs) :: upsertTopic t n h

/-- `EventEmitter.on(eventName, callback)`. -/
def EventEmitter.on {α : Type} (em : EventEmitter α) (name : String) (h : EventHandler α) :
    EventEmitter α :=
  ⟨upsertTopic em.events name h⟩

/-- `forEach(callback => callback(data))`: run the handlers in order; a throw
escapes immediately, so later handlers are not invoked. -/
def runHandlers {α : Type} : List (EventHandler α) → α → List ℕ → List ℕ × Bool
  | [], _, log => (log, false)
  | h :: t, payload, log =>
      let r := h payload log
      if r.2 then (r.1, true) else runHandlers t payload r.1

/-- `EventEmitter.emit(eventName, data)`: silently skip an absent topic, else
dispatch over its handler array.  The result is the effect log and whether an
exception escaped the `emit` call. -/
def EventEmitter.emit {α : Type} (em : EventEmitter α) (name : String) (payload : α)
    (log : List ℕ) : List ℕ × Bool :=
  match lookupTopic em.events name with
  | none => (log, false)
  | some hs => runHandlers hs payload log

/-- A `CalculationCommand`: the forward action over the calculator state, and
the snapshot taken by `execute()` (`null` before the first execution). -/
structure CalcCommand (σ : Type) where
  op : σ → σ
  previousState : Option σ

/-- `CommandHistory`: the command list and the cursor. -/
structure CommandHistory (σ : Type) where
  commands : List (CalcCommand σ)
  currentIndex : ℤ

/-- The constructor state: empty list, cursor `-1`. -/
def CommandHistory.init (σ : Type) : CommandHistory σ := ⟨[], -1⟩

/-- `CommandHistory.execute(command)`: discard entries after the cursor
(`slice(0, currentIndex + 1)`), run the command (which snapshots the current
calculator state first), push it, advance the cursor, and on overflow past 50
`shift()` the oldest entry and pull the cursor back. -/
def CommandHistory.execute {σ : Type} (h : CommandHistory σ) (c : CalcCommand σ) (s : σ) :
    CommandHistory σ × σ :=
  let kept := h.commands.take (h.currentIndex + 1).toNat
  let c' := { c with previousState := some s }
  let s' := c.op s
  let cmds := kept ++ [c']
  let idx := h.currentIndex + 1
  if 50 < cmds.length then (⟨cmds.drop 1, idx - 1⟩, s') else (⟨cmds, idx⟩, s')

/-- `CommandHistory.undo()`: with a non-negative cursor, run the cursor
command's `undo()` (restoring its snapshot when one was captured), decrement,
return `true`; else return `false` untouched.  (`commands[currentIndex]`
always exists under the class invariant; the `none` fallback is dead code.) -/
def CommandHistory.undo {σ : Type} (h : CommandHistory σ) (s : σ) :
    CommandHistory σ × σ × Bool :=
  if 0 ≤ h.currentIndex then
    match h.commands.get? h.currentIndex.toNat with
    | some c => (⟨h.commands, h.currentIndex - 1⟩, c.previousState.getD s, true)
    | none => (⟨h.commands, h.currentIndex - 1⟩, s, true)
  else (h, s, false)

/-- `CommandHistory.canUndo()`. -/
def CommandHistory.canUndo {σ : Type} (h : CommandHistory σ) : Bool :=
  0 ≤ h.currentIndex

/-- Run a batch of commands through `execute`, threading the calculator
state. -/
def runExecutes {σ : Type} (h : CommandHistory σ) (s : σ) (cs : List (CalcCommand σ)) :
    CommandHistory σ × σ :=
  cs.foldl (fun p c => p.1.execute c p.2) (h, s)

/-- The boolean results of `n` consecutive `undo()` calls. -/
def undoBools {σ : Type} : CommandHistory σ → σ → ℕ → List Bool
  | _, _, 0 => []
  | h, s, n + 1 => (h.undo s).2.2 :: undoBools (h.undo s).1 (h.undo s).2.1 n

/-- The documented `CommandHistory` invariant, plus the depth cap. -/
def CommandHistory.Inv {σ : Type} (h : CommandHistory σ) : Prop :=
  -1 ≤ h.currentIndex ∧ h.currentIndex < h.commands.length ∧ h.commands.length ≤ 50

instance {σ : Type} (h : CommandHistory σ) : Decidable h.Inv := by
  unfold CommandHistory.Inv; infer_instance

instance {ε α : Type} [DecidableEq ε] [DecidableEq α] : DecidableEq (Except ε α)
  | Except.ok a, Except.ok b =>
      if h : a = b then Decidable.isTrue (by rw [h]) else Decidable.isFalse (by simp [h])
  | Except.ok _, Except.error _ => Decidable.isFalse (by simp)
  | Except.error _, Except.ok _ => Decidable.isFalse (by simp)
  | Except.error e, Except.error f =>
      if h : e = f then Decidable.isTrue (by rw [h]) else Decidable.isFalse (by simp [h])

/-- A concrete `Math` instantiation for witnesses (its kernels are never
relevant to the properties instantiated with it). -/
def mathLib0 : MathLib :=
  { sin := fun _ => 0, cos := fun _ => 0, tan := fun _ => 0,
    log10 := fun _ => 0, log := fun _ => 0, sqrt := fun _ => 0,
    pi := 0, e := 0 }

/-- A state with the pending computation `5 % 0`: the remainder evaluates to
`NaN`, so formatting fails, yet the flow commits a new state and log entry. -/
def divergentState : CalcState :=
  { initialState with previousValue := "5", operator := some "%", history := "5 %" }

/-- A state with the pending computation `5 / 0`: the basic strategy throws
`DivisionByZero`, which reaches the controller's catch. -/
def zeroDivState : CalcState :=
  { initialState with previousValue := "5", operator := some "/", history := "5 /" }

/-! ### Generic lemmas about the embedded operations -/

lemma addToHistory_eq_take (l : List HistoryItem) (e : HistoryItem) :
    addToHistory l e = (e :: l).take 100 := by
  by_cases h : 100 < l.length + 1
  · simp [addToHistory, h]
  · have h2 : (e :: l).length ≤ 100 := by simp; omega
    rw [List.take_of_length_le h2]
    simp [addToHistory]
    omega

lemma take_append_take (n : ℕ) (x y : List HistoryItem) :
    (x ++ y.take n).take n = (x ++ y).take n := by
  rw [List.take_append_eq_append_take, List.take_append_eq_append_take, List.take_take,
    min_eq_left (Nat.sub_le n x.length)]

lemma foldl_addToHistory (es : List HistoryItem) (l : List HistoryItem) (h : es ≠ []) :
    es.foldl addToHistory l = (es.reverse ++ l).take 100 := by
  induction es generalizing l with
  | nil => exact absurd rfl h
  | cons e es ih =>
    by_cases hes : es = []
    · subst hes
      simp [addToHistory_eq_take]
    · rw [List.foldl_cons, ih _ hes, addToHistory_eq_take, take_append_take]
      simp

lemma execute_full {σ : Type} (h : CommandHistory σ) (c : CalcCommand σ) (s : σ)
    (hf : h.currentIndex = h.commands.length - 1) (hle : h.commands.length ≤ 50) :
    (h.execute c s).1.currentIndex = (h.execute c s).1.commands.length - 1 ∧
    (h.execute c s).1.commands.length = min (h.commands.length + 1) 50 := by
  have htake : (h.currentIndex + 1).toNat = h.commands.length := by omega
  simp only [CommandHistory.execute]
  split
  · next hgt =>
    simp only [List.length_append, List.length_take, List.length_drop,
      List.length_cons, List.length_nil, htake] at hgt ⊢
    constructor
    · omega
    · omega
  · next hgt =>
    simp only [List.length_append, List.length_take, List.length_cons,
      List.length_nil, htake] at hgt ⊢
    constructor
    · omega
    · omega

lemma runExecutes_full {σ : Type} (cs : List (CalcCommand σ)) (h : CommandHistory σ) (s : σ)
    (hf : h.currentIndex = h.commands.length - 1) (hle : h.commands.length ≤ 50) :
    (runExecutes h s cs).1.currentIndex = (runExecutes h s cs).1.commands.length - 1 ∧
    (runExecutes h s cs).1.commands.length = min (h.commands.length + cs.length) 50 := by
  induction cs generalizing h s with
  | nil =>
    simp only [runExecutes, List.foldl_nil, List.length_nil, Nat.add_zero]
    exact ⟨hf, by omega⟩
  | cons c cs ih =>
    have step := execute_full h c s hf hle
    have := ih (h.execute c s).1 (h.execute c s).2 step.1 (by omega)
    simp only [runExecutes, List.foldl_cons] at this ⊢
    refine ⟨this.1, ?_⟩
    rw [this.2, step.2]
    simp only [List.length_cons]
    omega

lemma undo_shape {σ : Type} (h : CommandHistory σ) (s : σ) (hidx : 0 ≤ h.currentIndex) :
    (h.undo s).1.commands = h.commands ∧
    (h.undo s).1.currentIndex = h.currentIndex - 1 ∧ (h.undo s).2.2 = true := by
  unfold CommandHistory.undo
  rcases h.commands.get? h.currentIndex.toNat with _ | c <;> simp [hidx]

lemma undoBools_spec {σ : Type} (n : ℕ) (h : CommandHistory σ) (s : σ) :
    undoBools h s n =
      List.replicate (min n (h.currentIndex + 1).toNat) true ++
      List.replicate (n - (h.currentIndex + 1).toNat) false := by
  induction n generalizing h s with
  | zero => simp [undoBools]
  | succ n ih =>
    rw [undoBools]
    by_cases hidx : 0 ≤ h.currentIndex
    · obtain ⟨hc, hi, hb⟩ := undo_shape h s hidx
      rw [hb, ih, hi]
      have hk : (h.currentIndex - 1 + 1).toNat = h.currentIndex.toNat := by omega
      have hk2 : (h.currentIndex + 1).toNat = h.currentIndex.toNat + 1 := by omega
      rw [hk, hk2,
        show min (n + 1) (h.currentIndex.toNat + 1) = min n h.currentIndex.toNat + 1 by omega,
        show n + 1 - (h.currentIndex.toNat + 1) = n - h.currentIndex.toNat by omega,
        List.replicate_succ]
      rfl
    · have hb : h.undo s = (h, s, false) := by
        unfold CommandHistory.undo
        simp [hidx]
      rw [hb, ih]
      have hk : (h.currentIndex + 1).toNat = 0 := by omega
      rw [hk]
      simp [List.replicate_succ]

/-! ### Claim theorems -/

/-- C2: `CommandHistory` maintains `-1 ≤ currentIndex < commands.length` with
`commands.length ≤ 50` across every `execute()` and `undo()` call, starting
from the constructor state: `execute` truncates after the cursor, pushes,
advances, and on overflow evicts the oldest entry and pulls the cursor back
so indices stay valid. -/
theorem C2_commandHistory_invariant {σ : Type} :
    (CommandHistory.init σ).Inv ∧
    (∀ (h : CommandHistory σ) (c : CalcCommand σ) (s : σ), h.Inv → ((h.execute c s).1).Inv) ∧
    (∀ (h : CommandHistory σ) (s : σ), h.Inv → ((h.undo s).1).Inv) := by
  refine ⟨?_, ?_, ?_⟩
  · simp [CommandHistory.Inv, CommandHistory.init]
  · intro h c s hInv
    obtain ⟨h1, h2, h3⟩ := hInv
    simp only [CommandHistory.execute]
    split
    · next hgt =>
      simp only [List.length_append, List.length_take, List.length_cons,
        List.length_nil] at hgt
      refine ⟨?_, ?_, ?_⟩ <;>
        simp only [CommandHistory.Inv, List.length_drop, List.length_append,
          List.length_take, List.length_cons, List.length_nil] <;>
        omega
    · next hgt =>
      simp only [List.length_append, List.length_take, List.length_cons,
        List.length_nil] at hgt
      refine ⟨?_, ?_, ?_⟩ <;>
        simp only [CommandHistory.Inv, List.length_append, List.length_take,
          List.length_cons, List.length_nil] <;>
        omega
  · intro h s hInv
    obtain ⟨h1, h2, h3⟩ := hInv
    by_cases hidx : 0 ≤ h.currentIndex
    · obtain ⟨hc, hi, _⟩ := undo_shape h s hidx
      unfold CommandHistory.Inv
      rw [hc, hi]
      omega
    · have hb : h.undo s = (h, s, false) := by
        unfold CommandHistory.undo
        simp [hidx]
      rw [hb]
      exact ⟨h1, h2, h3⟩

/-- Witness for C2 at concrete inputs: the constructor state satisfies the
invariant, and it is preserved across a concrete `execute` and `undo`. -/
theorem C2_witness :
    (CommandHistory.init ℕ).Inv ∧
    (((CommandHistory.init ℕ).execute ⟨id, none⟩ 0).1).Inv ∧
    (((CommandHistory.init ℕ).undo 0).1).Inv :=
  ⟨C2_commandHistory_invariant.1,
   C2_commandHistory_invariant.2.1 _ _ _ (by decide),
   C2_commandHistory_invariant.2.2 _ _ (by decide)⟩

/-- C3: with a non-negative cursor, `undo()` restores the snapshot captured
by the command at the cursor, decrements the cursor and returns `true`; with
a negative cursor it returns `false` and mutates nothing.  After executing 60
commands from the constructor state, 60 consecutive `undo()` calls return
`true` exactly 50 times and `false` for the remaining 10. -/
theorem C3_undo_behavior {σ : Type} :
    (∀ (h : CommandHistory σ) (s : σ) (c : CalcCommand σ) (p : σ),
      0 ≤ h.currentIndex →
      h.commands.get? h.currentIndex.toNat = some c →
      c.previousState = some p →
      h.undo s = (⟨h.commands, h.currentIndex - 1⟩, p, true)) ∧
    (∀ (h : CommandHistory σ) (s : σ), h.currentIndex < 0 → h.undo s = (h, s, false)) ∧
    (∀ (cs : List (CalcCommand σ)) (s : σ), cs.length = 60 →
      undoBools (runExecutes (CommandHistory.init σ) s cs).1
          (runExecutes (CommandHistory.init σ) s cs).2 60 =
        List.replicate 50 true ++ List.replicate 10 false) := by
  refine ⟨?_, ?_, ?_⟩
  · intro h s c p hidx hget hp
    unfold CommandHistory.undo
    rw [hget]
    simp [hidx, hp]
  · intro h s hidx
    unfold CommandHistory.undo
    simp [not_le.mpr hidx]
  · intro cs s hlen
    have hrun := runExecutes_full cs (CommandHistory.init σ) s
      (by simp [CommandHistory.init]) (by simp [CommandHistory.init])
    have hl : (runExecutes (CommandHistory.init σ) s cs).1.commands.length = 50 := by
      rw [hrun.2]
      simp [CommandHistory.init, hlen]
    rw [undoBools_spec, hrun.1, hl]
    decide

/-- Witness for C3 at concrete inputs: a one-command history undoes to the
captured snapshot, the empty history refuses, and a 60-command run undoes
`true` 50 times then `false` 10 times. -/
theorem C3_witness :
    (CommandHistory.mk [CalcCommand.mk id (some 7)] 0).undo (3 : ℕ) =
      (⟨[CalcCommand.mk id (some 7)], -1⟩, 7, true) ∧
    (CommandHistory.init ℕ).undo 3 = (CommandHistory.init ℕ, 3, false) ∧
    undoBools (runExecutes (CommandHistory.init ℕ) 0 (List.replicate 60 ⟨id, none⟩)).1
        (runExecutes (CommandHistory.init ℕ) 0 (List.replicate 60 ⟨id, none⟩)).2 60 =
      List.replicate 50 true ++ List.replicate 10 false :=
  ⟨C3_undo_behavior.1 _ _ _ _ (by decide) rfl rfl,
   C3_undo_behavior.2.1 _ _ (by decide),
   C3_undo_behavior.2.2 _ _ (by simp)⟩

/-- C8: the calculation log is newest-first and capped at 100: after
prepending 150 entries (into any starting log) exactly the 100 most recently
inserted remain, newest first. -/
theorem C8_history_cap (l : List HistoryItem) (es : List HistoryItem) (h : es.length = 150) :
    es.foldl addToHistory l = es.reverse.take 100 ∧
    (es.foldl addToHistory l).length = 100 := by
  have hne : es ≠ [] := by
    intro h0
    rw [h0] at h
    simp at h
  rw [foldl_addToHistory es l hne]
  constructor
  · rw [List.take_append_of_le_length (by simp [h])]
  · simp [h]
    omega

/-- Witness for C8: inserting 150 concrete entries into the empty log. -/
theorem C8_witness :
    (List.replicate 150 ({ expression := "", result := "" } : HistoryItem)).foldl
        addToHistory [] =
      (List.replicate 150 ({ expression := "", result := "" } : HistoryItem)).reverse.take 100 ∧
    ((List.replicate 150 ({ expression := "", result := "" } : HistoryItem)).foldl
        addToHistory []).length = 100 :=
  C8_history_cap [] _ (by simp)

lemma onAll_events {α : Type} (name : String) (hs : List (EventHandler α))
    (acc : List (EventHandler α)) :
    hs.foldl (fun em h => em.on name h) (EventEmitter.mk [(name, acc)]) =
      EventEmitter.mk [(name, acc ++ hs)] := by
  induction hs generalizing acc with
  | nil => simp
  | cons h t ih =>
    rw [List.foldl_cons]
    have hstep : (EventEmitter.mk [(name, acc)]).on name h =
        EventEmitter.mk [(name, acc ++ [h])] := by
      simp [EventEmitter.on, upsertTopic]
    rw [hstep, ih]
    simp

lemma runHandlers_loggers {α : Type} (specs : List (ℕ × Bool)) (p : α) (log : List ℕ) :
    runHandlers (specs.map (fun sp => mkLogger α sp.1 sp.2)) p log =
      (log ++ (specs.takeWhile (fun sp => !sp.2)).map Prod.fst ++
        ((specs.dropWhile (fun sp => !sp.2)).head?.map Prod.fst).toList,
       !(specs.dropWhile (fun sp => !sp.2)).isEmpty) := by
  induction specs generalizing log with
  | nil => simp [runHandlers]
  | cons sp t ih =>
    rcases sp with ⟨i, thr⟩
    cases thr
    · simp only [List.map_cons, runHandlers, mkLogger, if_neg (by simp : ¬((log ++ [i], false).2 = true))]
      rw [ih]
      simp [List.takeWhile_cons, List.dropWhile_cons]
    · simp [runHandlers, mkLogger, List.takeWhile_cons, List.dropWhile_cons]

/-- C5 counterexample: with two handlers subscribed on a topic, the first of
which throws, `emit` propagates the exception and the second handler is never
invoked — the payload is *not* delivered to every handler. -/
theorem C5_counterexample :
    (EventEmitter.mk [("valueChanged", [mkLogger Unit 1 true, mkLogger Unit 2 false])]).emit
        "valueChanged" () [] = ([1], true) ∧
    2 ∉ ((EventEmitter.mk [("valueChanged", [mkLogger Unit 1 true, mkLogger Unit 2 false])]).emit
        "valueChanged" () []).1 := by
  constructor
  · rfl
  · decide

/-- C5 (amended): handlers subscribed in order are stored in insertion order
and dispatched sequentially; when no handler throws, every handler receives
the payload in insertion order; but delivery stops at the first throwing
handler, whose exception escapes `emit`, so subsequent handlers are not
invoked. -/
theorem C5_emit_order {α : Type} (name : String) (specs : List (ℕ × Bool)) (p : α)
    (log : List ℕ) :
    (((specs.map (fun sp => mkLogger α sp.1 sp.2)).foldl
        (fun em h => em.on name h) (EventEmitter.mk [])).emit name p log =
      runHandlers (specs.map (fun sp => mkLogger α sp.1 sp.2)) p log) ∧
    (runHandlers (specs.map (fun sp => mkLogger α sp.1 sp.2)) p log =
      (log ++ (specs.takeWhile (fun sp => !sp.2)).map Prod.fst ++
        ((specs.dropWhile (fun sp => !sp.2)).head?.map Prod.fst).toList,
       !(specs.dropWhile (fun sp => !sp.2)).isEmpty)) ∧
    ((∀ sp ∈ specs, sp.2 = false) →
      runHandlers (specs.map (fun sp => mkLogger α sp.1 sp.2)) p log =
        (log ++ specs.map Prod.fst, false)) := by
  refine ⟨?_, runHandlers_loggers specs p log, ?_⟩
  · cases specs with
    | nil => simp [EventEmitter.emit, lookupTopic, runHandlers]
    | cons sp t =>
      rw [List.map_cons, List.foldl_cons]
      have hstep : (EventEmitter.mk ([] : List (String × List (EventHandler α)))).on name
          (mkLogger α sp.1 sp.2) = EventEmitter.mk [(name, [mkLogger α sp.1 sp.2])] := by
        simp [EventEmitter.on, upsertTopic]
      rw [hstep, onAll_events]
      simp [EventEmitter.emit, lookupTopic]
  · intro hall
    rw [runHandlers_loggers]
    have ht : specs.takeWhile (fun sp => !sp.2) = specs := by
      rw [List.takeWhile_eq_self_iff]
      intro sp hsp
      simp [hall sp hsp]
    have hd : specs.dropWhile (fun sp => !sp.2) = [] := by
      rw [List.dropWhile_eq_nil_iff]
      intro sp hsp
      simp [hall sp hsp]
    rw [ht, hd]
    simp

/-- Witness for C5's amended statement: two non-throwing handlers both
receive the payload, in insertion order. -/
theorem C5_witness :
    runHandlers ([((1 : ℕ), false), (2, false)].map (fun sp => mkLogger Unit sp.1 sp.2)) () [] =
      ([1, 2], false) := by
  have h := (C5_emit_order "valueChanged" [((1 : ℕ), false), (2, false)] () ([] : List ℕ)).2.2
    (by decide)
  simpa using h

lemma inputNumber_fold (ds : List Char) (st : CalcState)
    (hw : st.isWaitingForOperand = false) (h0 : st.currentValue ≠ "0")
    (hne : st.currentValue.data ≠ [])
    (hlen : st.currentValue.data.length + ds.length ≤ 15) :
    (ds.foldl (fun s c => (inputNumber (String.mk [c]) s).1) st).currentValue =
      String.mk (st.currentValue.data ++ ds) := by
  induction ds generalizing st with
  | nil => simp
  | cons c t ih =>
    rw [List.foldl_cons]
    have hstep : (inputNumber (String.mk [c]) st).1 =
        { st with currentValue := st.currentValue ++ String.mk [c] } := by
      have hlen1 : ¬ 15 < st.currentValue.length + 1 := by
        show ¬ 15 < st.currentValue.data.length + 1
        simp only [List.length_cons] at hlen
        omega
      simp [inputNumber, hw, h0, hlen1]
    rw [hstep, ih]
    · show String.mk ((st.currentValue ++ String.mk [c]).data ++ t) = _
      rw [String.data_append]
      simp
    · exact hw
    · intro heq
      have := congrArg String.data heq
      rw [String.data_append] at this
      have : st.currentValue.data.length + 1 = 1 := by
        have h2 := congrArg List.length this
        simpa using h2
      exact hne (List.length_eq_zero.mp (by omega))
    · show (st.currentValue ++ String.mk [c]).data ≠ []
      rw [String.data_append]
      simp
    · show (st.currentValue ++ String.mk [c]).data.length + t.length ≤ 15
      rw [String.data_append]
      simp only [List.length_append, List.length_cons, List.length_nil] at hlen ⊢
      omega

/-- C4 counterexample: in the fresh state (`currentValue = "0"`, pending-flag
clear) entering the digit `5` yields `"5"`, not the appended `"05"` the claim
describes — the lone `"0"` is replaced, not appended to. -/
theorem C4_counterexample :
    (inputNumber "5" initialState).1.currentValue = "5" ∧
    (inputNumber "5" initialState).1.currentValue ≠ "05" := by
  constructor <;> decide

/-- C4 (amended): with a pending operand, `inputDigit` replaces
`currentValue` and clears the flag; otherwise, a lone `"0"` is replaced by
the digit, and any other value gets the digit appended — unless the result
would exceed 15 characters, in which case the input is rejected with a toast
and the state is unchanged.  Digit sequences within the cap whose first digit
is not `0` are reproduced exactly from the fresh state. -/
theorem C4_input_digits :
    (∀ (st : CalcState) (d : String),
      (st.isWaitingForOperand = true →
        inputNumber d st = ({ st with currentValue := d, isWaitingForOperand := false }, false)) ∧
      (st.isWaitingForOperand = false → st.currentValue = "0" → d.length ≤ 15 →
        inputNumber d st = ({ st with currentValue := d }, false)) ∧
      (st.isWaitingForOperand = false → st.currentValue = "0" → 15 < d.length →
        inputNumber d st = (st, true)) ∧
      (st.isWaitingForOperand = false → st.currentValue ≠ "0" →
        (st.currentValue ++ d).length ≤ 15 →
        inputNumber d st = ({ st with currentValue := st.currentValue ++ d }, false)) ∧
      (st.isWaitingForOperand = false → st.currentValue ≠ "0" →
        15 < (st.currentValue ++ d).length →
        inputNumber d st = (st, true))) ∧
    (∀ (ds : List Char), ds ≠ [] → ds.head? ≠ some '0' → (∀ c ∈ ds, c.isDigit) →
      ds.length ≤ 15 →
      ((ds.foldl (fun st c => (inputNumber (String.mk [c]) st).1) initialState).currentValue =
        String.mk ds)) := by
  constructor
  · intro st d
    refine ⟨?_, ?_, ?_, ?_, ?_⟩
    · intro hw
      simp [inputNumber, hw]
    · intro hw h0 hd
      simp [inputNumber, hw, h0, Nat.not_lt.mpr hd]
    · intro hw h0 hd
      simp [inputNumber, hw, h0, hd]
    · intro hw h0 hd
      rw [String.length_append] at hd
      simp [inputNumber, hw, h0, Nat.not_lt.mpr hd]
    · intro hw h0 hd
      rw [String.length_append] at hd
      simp [inputNumber, hw, h0, hd]
  · intro ds hne hhead hdig hlen
    cases ds with
    | nil => exact absurd rfl hne
    | cons c t =>
      rw [List.foldl_cons]
      have hstep : (inputNumber (String.mk [c]) initialState).1 =
          { initialState with currentValue := String.mk [c] } := by
        simp [inputNumber, initialState]
      rw [hstep]
      have hc0 : c ≠ '0' := by
        intro h
        rw [h] at hhead
        simp at hhead
      have := inputNumber_fold t { initialState with currentValue := String.mk [c] }
        rfl
        (by
          intro h
          have := congrArg String.data h
          simp at this
          exact hc0 this)
        (by simp)
        (by
          simp only [List.length_cons] at hlen
          simp
          omega)
      rw [this]
      simp

/-- Witness for C4's amended statement: a pending-operand replacement, and
the digit sequence `123` reproduced exactly from the fresh state. -/
theorem C4_witness :
    (inputNumber "7" { initialState with isWaitingForOperand := true } =
      ({ initialState with currentValue := "7", isWaitingForOperand := false }, false)) ∧
    ((['1', '2', '3'] : List Char).foldl
        (fun st c => (inputNumber (String.mk [c]) st).1) initialState).currentValue = "123" := by
  constructor
  · exact (C4_input_digits.1 _ "7").1 rfl
  · exact C4_input_digits.2 ['1', '2', '3'] (by decide) (by decide) (by decide) (by decide)

lemma modelCalculate_basic_div (lib : MathLib) (a b : ℚ) :
    modelCalculate lib "basic" "/" (JSNum.num a) (JSNum.num b) =
      if b = 0 then Except.error CalcError.divisionByZero
      else Except.ok (JSNum.num (a / b)) := by
  by_cases hb : b = 0
  · subst hb
    simp [modelCalculate, strategyOperations, basicOperation]
  · simp [modelCalculate, strategyOperations, basicOperation, hb, JSNum.lift2]

/-- C6: in the basic strategy, `calculate('/', a, b)` signals
`DivisionByZero` exactly when `b = 0` and otherwise returns `a / b`;
`calculate('/', 5, 0)` signals `DivisionByZero` and `calculate('+', 2, 3)`
returns `5`. -/
theorem C6_division (lib : MathLib) (a b : ℚ) :
    (modelCalculate lib "basic" "/" (JSNum.num a) (JSNum.num b) =
        Except.error CalcError.divisionByZero ↔ b = 0) ∧
    (b ≠ 0 → modelCalculate lib "basic" "/" (JSNum.num a) (JSNum.num b) =
        Except.ok (JSNum.num (a / b))) ∧
    modelCalculate lib "basic" "/" (JSNum.num 5) (JSNum.num 0) =
      Except.error CalcError.divisionByZero ∧
    modelCalculate lib "basic" "+" (JSNum.num 2) (JSNum.num 3) =
      Except.ok (JSNum.num 5) := by
  refine ⟨?_, ?_, ?_, ?_⟩
  · rw [modelCalculate_basic_div]
    constructor
    · intro h
      by_contra hb
      rw [if_neg hb] at h
      exact Except.noConfusion h
    · intro hb
      rw [if_pos hb]
  · intro hb
    rw [modelCalculate_basic_div, if_neg hb]
  · rw [modelCalculate_basic_div]
    norm_num
  · have : ((2 : ℚ) + 3) = 5 := by norm_num
    simp [modelCalculate, strategyOperations, basicOperation, JSNum.lift2, this]

/-- Witness for C6: division of concrete non-zero operands returns the
quotient. -/
theorem C6_witness :
    modelCalculate mathLib0 "basic" "/" (JSNum.num 6) (JSNum.num 2) =
      Except.ok (JSNum.num (6 / 2)) :=
  (C6_division mathLib0 6 2).2.1 (by norm_num)

lemma jsFactorialLoop_eq (n : ℕ) : jsFactorialLoop n = (n.factorial : ℚ) := by
  induction n with
  | zero => simp [jsFactorialLoop]
  | succ n ih =>
    cases n with
    | zero => simp [jsFactorialLoop]
    | succ m =>
      have h1 : (m + 2) - 1 = m + 1 := rfl
      have h2 : jsFactorialLoop (m + 1) =
          List.foldl (fun (r : ℚ) (i : ℕ) => r * (i : ℚ)) 1 (List.range' 2 m) := by
        rw [jsFactorialLoop]
        norm_num
      rw [jsFactorialLoop, h1, List.range'_concat, List.foldl_append, ← h2, ih]
      simp only [List.foldl_cons, List.foldl_nil]
      push_cast [Nat.factorial_succ]
      ring

lemma jsFactorial_nat (n : ℕ) (h : n ≤ 170) :
    jsFactorial (n : ℚ) = Except.ok ((n.factorial : ℚ)) := by
  have hcond : ¬(((n : ℚ)) < 0 ∨ ¬((n : ℚ)).den = 1 ∨ 170 < ((n : ℚ))) := by
    push_neg
    refine ⟨by positivity, Rat.den_natCast n, by exact_mod_cast h⟩
  unfold jsFactorial
  rw [if_neg hcond]
  by_cases h01 : ((n : ℚ)) = 0 ∨ ((n : ℚ)) = 1
  · rw [if_pos h01]
    rcases h01 with h0 | h1
    · have : n = 0 := by exact_mod_cast h0
      subst this
      norm_num
    · have : n = 1 := by exact_mod_cast h1
      subst this
      norm_num
  · rw [if_neg h01]
    congr 1
    rw [show ((n : ℚ)).num.toNat = n by simp]
    exact jsFactorialLoop_eq n

/-- C7: `scientificCalculate('factorial', x)` signals `DomainError` exactly
when `x` is negative, non-integer, or greater than 170; every natural
`n ≤ 170` yields `n!`; factorial of 171 signals `DomainError` and factorial
of 5 yields 120. -/
theorem C7_factorial (lib : MathLib) (x : ℚ) :
    (modelScientificCalculate lib "factorial" (JSNum.num x) =
        Except.error CalcError.domainError ↔ (x < 0 ∨ x.den ≠ 1 ∨ 170 < x)) ∧
    (∀ n : ℕ, n ≤ 170 → modelScientificCalculate lib "factorial" (JSNum.num (n : ℚ)) =
        Except.ok (JSNum.num (n.factorial : ℚ))) ∧
    modelScientificCalculate lib "factorial" (JSNum.num 171) =
      Except.error CalcError.domainError ∧
    modelScientificCalculate lib "factorial" (JSNum.num 5) =
      Except.ok (JSNum.num 120) := by
  have hunfold : ∀ q : ℚ, modelScientificCalculate lib "factorial" (JSNum.num q) =
      (jsFactorial q).map JSNum.num := by
    intro q
    simp [modelScientificCalculate, scientificOperation]
  refine ⟨?_, ?_, ?_, ?_⟩
  · rw [hunfold]
    constructor
    · intro h
      by_contra hc
      unfold jsFactorial at h
      rw [if_neg (by tauto)] at h
      split at h <;> simp [Except.map] at h
    · intro hc
      unfold jsFactorial
      rw [if_pos (by tauto)]
      rfl
  · intro n hn
    rw [hunfold, jsFactorial_nat n hn]
    rfl
  · rw [hunfold]
    unfold jsFactorial
    rw [if_pos (Or.inr (Or.inr (by norm_num)))]
    rfl
  · have h5 := jsFactorial_nat 5 (by norm_num)
    norm_num [Nat.factorial] at h5
    rw [hunfold, h5]
    rfl

/-- Witness for C7: factorial of 3 computed through the scientific
dispatch. -/
theorem C7_witness :
    modelScientificCalculate mathLib0 "factorial" (JSNum.num ((3 : ℕ) : ℚ)) =
      Except.ok (JSNum.num ((Nat.factorial 3 : ℕ) : ℚ)) :=
  (C7_factorial mathLib0 0).2.1 3 (by norm_num)

lemma digitChar_ne_dot (m : ℕ) (h : m < 10) : digitChar m ≠ '.' := by
  interval_cases m <;> decide

lemma dot_not_mem_natDigitsAux (fuel : ℕ) : ∀ n : ℕ, '.' ∉ natDigitsAux fuel n := by
  induction fuel with
  | zero => intro n; simp [natDigitsAux]
  | succ fuel ih =>
    intro n
    rw [natDigitsAux]
    split
    · simp
    · intro hmem
      rcases List.mem_append.mp hmem with h | h
      · exact ih _ h
      · rcases List.mem_singleton.mp h with h
        exact digitChar_ne_dot (n % 10) (Nat.mod_lt _ (by norm_num)) h.symm

lemma dot_not_mem_natToChars (n : ℕ) : '.' ∉ natToChars n := by
  unfold natToChars
  split
  · decide
  · exact dot_not_mem_natDigitsAux _ _

lemma fracDigitsAux_zero (fuel : ℕ) : fracDigitsAux fuel 0 = [] := by
  cases fuel <;> simp [fracDigitsAux]

lemma jsNumToChars_int (q : ℚ) (h : q.den = 1) :
    jsNumToChars q = (if q < 0 then ['-'] else []) ++ natToChars (⌊|q|⌋).toNat := by
  simp only [jsNumToChars]
  have hq : ((q.num : ℚ)) = q := (Rat.den_eq_one_iff q).mp h
  have habs : |q| = ((|q.num| : ℤ) : ℚ) := by
    rw [← hq]
    push_cast
    rfl
  have hfl : ⌊|q|⌋ = |q.num| := by rw [habs, Int.floor_intCast]
  have hr : |q| - (((⌊|q|⌋).toNat : ℕ) : ℚ) = 0 := by
    rw [hfl, habs]
    have h2 : ((|q.num|.toNat : ℕ) : ℚ) = ((|q.num| : ℤ) : ℚ) := by
      exact_mod_cast Int.toNat_of_nonneg (abs_nonneg q.num)
    rw [h2]
    ring
  rw [hr, fracDigitsAux_zero]
  simp

lemma den_abs (q : ℚ) : (|q|).den = q.den := by
  rcases abs_cases q with ⟨he, _⟩ | ⟨he, _⟩
  · rw [he]
  · rw [he]
    exact Rat.neg_den q

lemma dot_mem_jsNumToChars (q : ℚ) (h : q.den ≠ 1) : '.' ∈ jsNumToChars q := by
  simp only [jsNumToChars]
  have hfr : |q| - (((⌊|q|⌋).toNat : ℕ) : ℚ) ≠ 0 := by
    intro h0
    have h1 : |q| = (((⌊|q|⌋).toNat : ℕ) : ℚ) := by linarith
    have h2 : (|q|).den = 1 := by rw [h1, Rat.den_natCast]
    rw [den_abs] at h2
    exact h h2
  have hne : fracDigitsAux 1100 (|q| - (((⌊|q|⌋).toNat : ℕ) : ℚ)) ≠ [] := by
    show fracDigitsAux (1099 + 1) _ ≠ []
    rw [fracDigitsAux]
    simp [hfr]
  simp only [if_neg hne]
  exact List.mem_append.mpr (Or.inr (List.mem_cons_self _ _))

lemma jsNumToChars_natCast (n : ℕ) : jsNumToChars ((n : ℕ) : ℚ) = natToChars n := by
  rw [jsNumToChars_int _ (Rat.den_natCast n), if_neg (not_lt.mpr (by positivity)),
    abs_of_nonneg (by positivity : (0 : ℚ) ≤ (n : ℚ))]
  norm_num

lemma dot_not_mem_jsNumToChars (q : ℚ) (h : q.den = 1) : '.' ∉ jsNumToChars q := by
  rw [jsNumToChars_int q h]
  intro hmem
  rcases List.mem_append.mp hmem with h1 | h1
  · split at h1 <;> simp at h1
  · exact dot_not_mem_natToChars _ h1

lemma toExponential5_big : toExponential5 1234567890123 = "1.23457e+12" := by
  have h0 : ¬ (1234567890123 : ℚ) = 0 := by norm_num
  have habs : |(1234567890123 : ℚ)| = 1234567890123 := by norm_num
  have hfloor : ⌊(1234567890123 : ℚ)⌋ = 1234567890123 := by
    norm_num [Int.floor_eq_iff]
  have hlog : qLog10 1234567890123 = 12 := by
    unfold qLog10
    rw [if_pos (by norm_num), hfloor]
    decide
  have hm : round ((1234567890123 : ℚ) * (10 : ℚ) ^ ((5 : ℤ) - 12)) = 123457 := by
    norm_num [round_eq, Int.floor_eq_iff]
  simp only [toExponential5, if_neg h0, if_neg (by norm_num : ¬ (1234567890123 : ℚ) < 0),
    habs, hlog, hm]
  decide

lemma jsToLocaleString_1000 : jsToLocaleString 1000 = "1,000" := by
  have h2 : round (|(1000 : ℚ)| * 1000) = 1000000 := by
    norm_num [round_eq, Int.floor_eq_iff]
  simp only [jsToLocaleString, h2, if_neg (by norm_num : ¬ (1000 : ℚ) < 0)]
  decide

lemma jsNumToString_1000 : jsNumToString 1000 = "1000" := by
  have h : ((1000 : ℕ) : ℚ) = (1000 : ℚ) := by norm_num
  unfold jsNumToString
  rw [← h, jsNumToChars_natCast]
  decide

lemma jsNumToString_big : jsNumToString 1234567890123 = "1234567890123" := by
  have h : ((1234567890123 : ℕ) : ℚ) = (1234567890123 : ℚ) := by norm_num
  unfold jsNumToString
  rw [← h, jsNumToChars_natCast]
  decide

/-- C9: the shared number formatter fails with `InvalidNumber` exactly on
non-finite values; renders exponentially with 5 fractional digits when the
plain rendering exceeds 12 characters; applies grouping separators to values
of magnitude ≥ 1000 with no fractional part; and otherwise returns the plain
decimal string — with `1000 ↦ "1,000"` and the 13-digit
`1234567890123 ↦ "1.23457e+12"` as required instances. -/
theorem C9_formatter :
    (∀ v : JSNum, formatNumber v = Except.error CalcError.invalidNumber ↔ v = JSNum.nan) ∧
    (∀ q : ℚ, 12 < (jsNumToString q).length →
      formatNumber (JSNum.num q) = Except.ok (toExponential5 q)) ∧
    (∀ q : ℚ, (jsNumToString q).length ≤ 12 → 1000 ≤ |q| → q.den = 1 →
      formatNumber (JSNum.num q) = Except.ok (jsToLocaleString q)) ∧
    (∀ q : ℚ, (jsNumToString q).length ≤ 12 → (|q| < 1000 ∨ q.den ≠ 1) →
      formatNumber (JSNum.num q) = Except.ok (jsNumToString q)) ∧
    formatNumber (JSNum.num 1000) = Except.ok "1,000" ∧
    formatNumber (JSNum.num 1234567890123) = Except.ok "1.23457e+12" := by
  have hlen : ∀ q : ℚ, (jsNumToString q).length = (jsNumToChars q).length := fun _ => rfl
  have hdata : ∀ q : ℚ, (jsNumToString q).data = jsNumToChars q := fun _ => rfl
  refine ⟨?_, ?_, ?_, ?_, ?_, ?_⟩
  · intro v
    cases v with
    | num q =>
      simp only [formatNumber]
      constructor
      · intro h
        split at h
        · exact Except.noConfusion h
        · split at h <;> exact Except.noConfusion h
      · intro h
        exact JSNum.noConfusion h
    | nan => simp [formatNumber]
  · intro q h
    simp [formatNumber, h]
  · intro q hle h1000 hden
    have hdot : '.' ∉ (jsNumToString q).data := by
      rw [hdata]
      exact dot_not_mem_jsNumToChars q hden
    simp [formatNumber, Nat.not_lt.mpr hle, h1000, hdot]
  · intro q hle hcase
    have hcond : ¬ (1000 ≤ |q| ∧ '.' ∉ (jsNumToString q).data) := by
      rcases hcase with h | h
      · intro hc
        exact absurd hc.1 (not_le.mpr h)
      · intro hc
        exact hc.2 (by rw [hdata]; exact dot_mem_jsNumToChars q h)
    simp only [formatNumber, if_neg (Nat.not_lt.mpr hle), if_neg hcond]
  · have hle : (jsNumToString 1000).length ≤ 12 := by rw [jsNumToString_1000]; decide
    have hdot : '.' ∉ (jsNumToString 1000).data := by rw [jsNumToString_1000]; decide
    simp only [formatNumber, if_neg (Nat.not_lt.mpr hle),
      if_pos (⟨by norm_num, hdot⟩ : 1000 ≤ |(1000 : ℚ)| ∧ '.' ∉ (jsNumToString 1000).data),
      jsToLocaleString_1000]
  · have hgt : 12 < (jsNumToString 1234567890123).length := by
      rw [jsNumToString_big]; decide
    simp only [formatNumber, if_pos hgt, toExponential5_big]

/-- Witness for C9's conditional clauses: the exponential branch taken at the
13-digit value. -/
theorem C9_witness :
    12 < (jsNumToString 1234567890123).length ∧
    formatNumber (JSNum.num 1234567890123) = Except.ok (toExponential5 1234567890123) :=
  ⟨by rw [jsNumToString_big]; decide,
   C9_formatter.2.1 1234567890123 (by rw [jsNumToString_big]; decide)⟩

lemma jsParseFloat_zero : jsParseFloat "0" = JSNum.num 0 := by
  simp [jsParseFloat, digitsToNat]

lemma jsParseFloat_five : jsParseFloat "5" = JSNum.num 5 := by
  simp [jsParseFloat, digitsToNat]

lemma jsNumToString_zero : jsNumToString 0 = "0" := by
  unfold jsNumToString
  rw [show (0 : ℚ) = ((0 : ℕ) : ℚ) by norm_num, jsNumToChars_natCast]
  decide

/-- C1 counterexample: with `5 % 0` pending, `evaluate()` computes `NaN`, the
number formatting signals `InvalidNumber` — and yet the state and the
calculation log are mutated (the wrapper substitutes `"0"` and the flow
commits), with no error surfaced to the caller. -/
theorem C1_counterexample :
    (controllerCalculate mathLib0 divergentState).formatFallback = true ∧
    (controllerCalculate mathLib0 divergentState).surfaced = none ∧
    (controllerCalculate mathLib0 divergentState).state ≠ divergentState := by
  have hmod : modelCalculate mathLib0 "basic" "%" (JSNum.num 5) (JSNum.num 0) =
      Except.ok JSNum.nan := by
    simp [modelCalculate, strategyOperations, basicOperation, jsRem]
  have heval : controllerCalculate mathLib0 divergentState =
      { state := { divergentState with
          calculationHistory :=
            addToHistory divergentState.calculationHistory
              ⟨"5" ++ " " ++ "%" ++ " " ++ jsNumDisplay (JSNum.num 0), "0"⟩,
          currentValue := "0",
          previousValue := "",
          operator := none,
          isWaitingForOperand := true,
          history := ("5" ++ " " ++ "%" ++ " " ++ jsNumDisplay (JSNum.num 0)) ++ " =" },
        surfaced := none,
        formatFallback := true } := by
    simp only [controllerCalculate, divergentState, initialState, jsParseFloat_zero,
      jsParseFloat_five, JSNum.isNaNb, hmod, formatNumberWrapped, formatNumber]
    simp
  refine ⟨by rw [heval], by rw [heval], ?_⟩
  rw [heval]
  intro hcontra
  have := congrArg CalcState.operator hcontra
  simp [divergentState, initialState] at this

/-- C1 (amended): when the underlying operation fails, the error reaches the
controller's catch and the entire state — including the calculation log — is
untouched, for both `evaluate()` and `evaluateScientific(fn)`; but a number
formatting failure is swallowed by the controller's wrapper (no error is
surfaced) and the flow proceeds to mutate the state and the log. -/
theorem C1_evaluate_failure_isolation (lib : MathLib) (st : CalcState) (fn : String) :
    ((controllerCalculate lib st).surfaced.isSome → (controllerCalculate lib st).state = st) ∧
    ((controllerCalculate lib st).formatFallback = true →
      (controllerCalculate lib st).surfaced = none) ∧
    ((performScientificFunction lib fn st).surfaced.isSome →
      (performScientificFunction lib fn st).state = st) := by
  refine ⟨?_, ?_, ?_⟩
  · simp only [controllerCalculate]
    split
    · intro _
      rfl
    · split
      · intro _
        rfl
      · split
        · intro _
          rfl
        · intro h
          simp at h
  · simp only [controllerCalculate]
    split
    · intro _
      rfl
    · split
      · intro _
        rfl
      · split
        · intro h
          simp at h
        · intro _
          rfl
  · simp only [performScientificFunction]
    split
    · intro _
      rfl
    · intro h
      simp at h

/-- Witness for C1's amended statement: a pending `5 / 0` surfaces
`DivisionByZero` and leaves the state exactly as it was. -/
theorem C1_witness :
    (controllerCalculate mathLib0 zeroDivState).surfaced = some CalcError.divisionByZero ∧
    (controllerCalculate mathLib0 zeroDivState).state = zeroDivState := by
  have hmod : modelCalculate mathLib0 "basic" "/" (JSNum.num 5) (JSNum.num 0) =
      Except.error CalcError.divisionByZero := by
    rw [modelCalculate_basic_div]
    norm_num
  have hs : (controllerCalculate mathLib0 zeroDivState).surfaced =
      some CalcError.divisionByZero := by
    simp only [controllerCalculate, zeroDivState, initialState, jsParseFloat_zero,
      jsParseFloat_five, JSNum.isNaNb, hmod]
    simp
  exact ⟨hs, (C1_evaluate_failure_isolation mathLib0 zeroDivState "sqrt").1 (by rw [hs]; rfl)⟩

/-- C10: `evaluate()` is idempotent across a double call: a successful first
call clears the pending operator and previous value, making the second call a
no-op, and a failing or guarded first call leaves the state unchanged so the
second call repeats it verbatim — the state and log after two calls always
equal those after one. -/
theorem C10_evaluate_idempotent (lib : MathLib) (st : CalcState) :
    ((controllerCalculate lib (controllerCalculate lib st).state).state =
      (controllerCalculate lib st).state) ∧
    (st.operator = none ∨ st.previousValue = "" →
      (controllerCalculate lib st).state = st ∧
      (controllerCalculate lib st).surfaced = none) := by
  constructor
  case right =>
    intro hcase
    rcases hcase with hop | hprev
    · simp [controllerCalculate, hop]
    · rcases hop : st.operator with _ | op
      · simp [controllerCalculate, hop]
      · constructor <;>
          (simp only [controllerCalculate, hop]; rw [if_pos (Or.inl hprev)])
  rcases hop : st.operator with _ | op
  · have h1 : (controllerCalculate lib st).state = st := by
      simp [controllerCalculate, hop]
    rw [h1]
    exact h1
  · by_cases hguard : st.previousValue = "" ∨ (jsParseFloat st.currentValue).isNaNb = true
    · have h1 : (controllerCalculate lib st).state = st := by
        simp only [controllerCalculate, hop]
        rw [if_pos hguard]
      rw [h1]
      exact h1
    · rcases hm : modelCalculate lib st.currentStrategy op (jsParseFloat st.previousValue)
        (jsParseFloat st.currentValue) with e | r
      · have h1 : (controllerCalculate lib st).state = st := by
          simp only [controllerCalculate, hop]
          rw [if_neg hguard, hm]
        rw [h1]
        exact h1
      · have h1 : (controllerCalculate lib st).state.operator = none := by
          simp only [controllerCalculate, hop]
          rw [if_neg hguard, hm]
        have hnone : ∀ s2 : CalcState, s2.operator = none →
            (controllerCalculate lib s2).state = s2 := by
          intro s2 h2
          simp [controllerCalculate, h2]
        exact hnone _ h1

/-- Witness for C10's no-op clause: the fresh state has no pending operator,
so `evaluate()` leaves it untouched. -/
theorem C10_witness :
    (controllerCalculate mathLib0 initialState).state = initialState ∧
    (controllerCalculate mathLib0 initialState).surfaced = none :=
  (C10_evaluate_idempotent mathLib0 initialState).2 (Or.inl rfl)
